import Mathlib

/-!
Shallow embedding of the music-visualizer instrument-activity detector.

Real-time detector: `src/src/utils/AudioProcessor.js` (class AudioProcessor):
band configuration, `updateDetectionHistory`, `getDetectionConfidence`,
`processInstrumentData`, `processOverlaps`, `getInstrumentEnergy`.
Batch rule layer: `src/server/audioProcessor.js` (`detectInstruments`).

JS numbers are modelled as rationals (ℚ); `Uint8Array` frequency frames as
`List ℕ` of byte magnitudes; per-band detection-history arrays as `List ℚ`
(newest at the end, `push` appends, `shift` drops the head).
-/

namespace MusicVisualizer

/-- The seven configured real-time bands (`this.instruments`, with the three
drum components flattened as in `detectionHistory`). -/
inductive Band
  | vocals | guitar | bass | kick | snare | hihat | synth
deriving DecidableEq

/-- `freqRange` per band, from the `instruments` configuration object. -/
def freqRange : Band → ℚ × ℚ
  | .vocals => (300, 3500)
  | .guitar => (300, 4000)
  | .bass => (60, 250)
  | .kick => (20, 100)
  | .snare => (120, 250)
  | .hihat => (800, 5000)
  | .synth => (100, 8000)

/-- `threshold` per band, from the `instruments` configuration object. -/
def threshold : Band → ℚ
  | .vocals => 9/20
  | .guitar => 1/2
  | .bass => 1/2
  | .kick => 3/5
  | .snare => 1/2
  | .hihat => 2/5
  | .synth => 9/20

/-- The `['kick', 'snare', 'hihat'].includes(instrument)` check used for the
percussion-specific branches. -/
def isPercussive : Band → Bool
  | .kick | .snare | .hihat => true
  | _ => false

/-- One band's per-tick output `{energy, active, confidence}`. -/
structure DetectionResult where
  energy : ℚ
  active : Bool
  confidence : ℚ
deriving DecidableEq

/-- `updateDetectionHistory`: push the energy, then if the history length
exceeds 20 shift off the oldest entry. -/
def updateDetectionHistory (history : List ℚ) (energy : ℚ) : List ℚ :=
  let h := history ++ [energy]
  if 20 < h.length then h.tail else h

/-- `history.slice(-5)`: the last five entries (all of them when fewer). -/
def recentFive (history : List ℚ) : List ℚ :=
  history.drop (history.length - 5)

/-- Arithmetic mean as computed by the `reduce`/length expression. -/
def meanOf (l : List ℚ) : ℚ := l.sum / l.length

/-- Population variance as computed by the `reduce`/length expression over
`Math.pow(val - mean, 2)`. -/
def varianceOf (l : List ℚ) : ℚ :=
  (l.map fun v => (v - meanOf l) ^ 2).sum / l.length

/-- `recentValues.some((val, i, arr) => i > 0 && val > arr[i-1] * 1.5)`:
pair each entry with its immediate predecessor and look for a jump strictly
above 1.5x. -/
def hasTransient (l : List ℚ) : Bool :=
  (l.tail.zip l).any fun p => decide (p.2 * (3/2) < p.1)

/-- `getDetectionConfidence`: 0.5 with fewer than 5 samples; for percussion,
0.8 when the last five samples contain a transient, else 0.4; otherwise
`min(0.9, max(0.3, 0.7 - variance * 5))` over the last five samples. -/
def getDetectionConfidence (percussive : Bool) (history : List ℚ) : ℚ :=
  if history.length < 5 then 1/2
  else if percussive then
    if hasTransient (recentFive history) then 4/5 else 2/5
  else
    min (9/10) (max (3/10) (7/10 - varianceOf (recentFive history) * 5))

/-- The frequency-to-index/averaging core of `processInstrumentData`:
`lowIndex`/`highIndex` by `Math.floor(freq / (sampleRate/2) * bufferLength)`,
sum `dataArray[i]` for `lowIndex <= i < highIndex && i < bufferLength`, and
divide the average by 255 when the range is nonempty, else 0. -/
def bandEnergyRaw (dataArray : List ℕ) (bufferLength : ℕ) (sampleRate : ℚ)
    (lowFreq highFreq : ℚ) : ℚ :=
  let lowIndex : ℤ := ⌊lowFreq / (sampleRate / 2) * bufferLength⌋
  let highIndex : ℤ := ⌊highFreq / (sampleRate / 2) * bufferLength⌋
  let lo := lowIndex.toNat
  let hi := min highIndex.toNat bufferLength
  let count := hi - lo
  let total := ((List.range' lo count).map fun i => dataArray.getD i 0).sum
  if 0 < count then (total : ℚ) / count / 255 else 0

/-- `processInstrumentData`: extract the band's raw energy, update its
history, and emit `{energy, active := energy > threshold, confidence}` with
the confidence computed from the just-updated history. Returns the result
together with the updated history. -/
def processInstrumentData (instrument : Band) (dataArray : List ℕ)
    (bufferLength : ℕ) (sampleRate : ℚ) (history : List ℚ) :
    DetectionResult × List ℚ :=
  let rawEnergy := bandEnergyRaw dataArray bufferLength sampleRate
    (freqRange instrument).1 (freqRange instrument).2
  let history := updateDetectionHistory history rawEnergy
  (⟨rawEnergy, decide (threshold instrument < rawEnergy),
    getDetectionConfidence (isPercussive instrument) history⟩, history)

/-- The per-tick `result` object before `processOverlaps`: one optional entry
per flat band key. -/
structure BandResults where
  vocals : Option DetectionResult
  guitar : Option DetectionResult
  bass : Option DetectionResult
  kick : Option DetectionResult
  snare : Option DetectionResult
  hihat : Option DetectionResult
  synth : Option DetectionResult
deriving DecidableEq

/-- The composite `result.drums` object: aggregate fields plus the
`components` map holding each constituent's individual result. -/
structure DrumsResult where
  energy : ℚ
  active : Bool
  confidence : ℚ
  kickComp : DetectionResult
  snareComp : DetectionResult
  hihatComp : DetectionResult
deriving DecidableEq

/-- The `result` object after `processOverlaps`: the per-band entries plus
the optional composite `drums` key. -/
structure OverlapOutput where
  bands : BandResults
  drums : Option DrumsResult
deriving DecidableEq

/-- First step of `processOverlaps`: if bass and guitar are both present and
active and `bass.energy > guitar.energy * 1.2`, scale guitar's confidence
by 0.7. -/
def suppressOverlap (result : BandResults) : BandResults :=
  match result.bass, result.guitar with
  | some b, some g =>
      if b.active && g.active && decide (g.energy * (6/5) < b.energy) then
        { result with guitar := some { g with confidence := g.confidence * (7/10) } }
      else result
  | _, _ => result

/-- Second step of `processOverlaps`: when kick, snare and hihat all have
results, build the composite `drums` entry (max energy, OR of actives, max
confidence, components kept). -/
def groupDrums (result : BandResults) : Option DrumsResult :=
  match result.kick, result.snare, result.hihat with
  | some k, some s, some h =>
      some ⟨max k.energy (max s.energy h.energy),
            k.active || s.active || h.active,
            max k.confidence (max s.confidence h.confidence),
            k, s, h⟩
  | _, _, _ => none

/-- `processOverlaps`: bass/guitar suppression followed by drum grouping,
in the source's order. -/
def processOverlaps (result : BandResults) : OverlapOutput :=
  let result := suppressOverlap result
  ⟨result, groupDrums result⟩

/-- The `detectionHistory` map: one history list per flat band key. -/
structure Histories where
  vocals : List ℚ
  guitar : List ℚ
  bass : List ℚ
  kick : List ℚ
  snare : List ℚ
  hihat : List ℚ
  synth : List ℚ

/-- `getInstrumentEnergy` (initialized path): run `processInstrumentData`
for every configured band over the same frame, then `processOverlaps`.
Returns the overlap-resolved result map and the advanced histories. -/
def getInstrumentEnergy (dataArray : List ℕ) (bufferLength : ℕ)
    (sampleRate : ℚ) (hs : Histories) : OverlapOutput × Histories :=
  let pv := processInstrumentData .vocals dataArray bufferLength sampleRate hs.vocals
  let pg := processInstrumentData .guitar dataArray bufferLength sampleRate hs.guitar
  let pb := processInstrumentData .bass dataArray bufferLength sampleRate hs.bass
  let pk := processInstrumentData .kick dataArray bufferLength sampleRate hs.kick
  let ps := processInstrumentData .snare dataArray bufferLength sampleRate hs.snare
  let ph := processInstrumentData .hihat dataArray bufferLength sampleRate hs.hihat
  let py := processInstrumentData .synth dataArray bufferLength sampleRate hs.synth
  (processOverlaps ⟨some pv.1, some pg.1, some pb.1, some pk.1, some ps.1, some ph.1, some py.1⟩,
   ⟨pv.2, pg.2, pb.2, pk.2, ps.2, ph.2, py.2⟩)

/-- Checks that an optional per-band result satisfies
`active == (energy > threshold)` for that band's own threshold. -/
def activeMatches (b : Band) (o : Option DetectionResult) : Bool :=
  o.elim true fun r => r.active == decide (threshold b < r.energy)

/-- Batch-mode six-band energies (`frequencyBands.<name>.energy`). -/
structure FreqBands where
  sub_bass : ℚ
  bass : ℚ
  low_mids : ℚ
  mids : ℚ
  high_mids : ℚ
  highs : ℚ

/-- One batch-mode detection entry `{detected, confidence}`. -/
structure InstrDetection where
  detected : Bool
  confidence : ℚ
deriving DecidableEq

/-- The batch-mode `detection` object with its six instrument keys. -/
structure DetectionMap where
  vocals : InstrDetection
  guitar : InstrDetection
  bass : InstrDetection
  drums : InstrDetection
  synth : InstrDetection
  piano : InstrDetection
deriving DecidableEq

/-- `detectInstruments` (server batch rule layer): start from all-false
entries and apply the five threshold rules in source order. -/
def detectInstruments (fb : FreqBands) : DetectionMap :=
  let d : DetectionMap := ⟨⟨false, 0⟩, ⟨false, 0⟩, ⟨false, 0⟩, ⟨false, 0⟩, ⟨false, 0⟩, ⟨false, 0⟩⟩
  let d := if 3/5 < fb.bass then { d with bass := ⟨true, fb.bass⟩ } else d
  let d := if 3/5 < fb.sub_bass ∨ 7/10 < fb.highs then
      { d with drums := ⟨true, max fb.sub_bass fb.highs⟩ } else d
  let d := if 7/10 < fb.mids then { d with vocals := ⟨true, fb.mids⟩ } else d
  let d := if 3/5 < fb.low_mids ∧ 1/2 < fb.mids then
      { d with guitar := ⟨true, (fb.low_mids + fb.mids) / 2⟩ } else d
  let d := if 7/10 < fb.high_mids ∧ 3/5 < fb.highs then
      { d with synth := ⟨true, (fb.high_mids + fb.highs) / 2⟩ } else d
  d

/-! ## Helper lemmas -/

theorem updateDetectionHistory_of_lt (h : List ℚ) (e : ℚ) (hlt : h.length < 20) :
    updateDetectionHistory h e = h ++ [e] := by
  unfold updateDetectionHistory
  rw [if_neg]
  simp
  omega

theorem updateDetectionHistory_of_eq (h : List ℚ) (e : ℚ) (h20 : h.length = 20) :
    updateDetectionHistory h e = (h ++ [e]).tail := by
  unfold updateDetectionHistory
  rw [if_pos]
  simp
  omega

theorem updateDetectionHistory_length_le (h : List ℚ) (e : ℚ) (hh : h.length ≤ 20) :
    (updateDetectionHistory h e).length ≤ 20 := by
  rcases Nat.lt_or_ge h.length 20 with hlt | hge
  · rw [updateDetectionHistory_of_lt h e hlt]
    simp
    omega
  · rw [updateDetectionHistory_of_eq h e (le_antisymm hh hge)]
    simp
    omega

/-- Folding pushes over a history of at most 20 keeps exactly the last 20
pushed-or-prior values, oldest first. -/
theorem foldl_updateDetectionHistory (xs : List ℚ) :
    ∀ h : List ℚ, h.length ≤ 20 →
      List.foldl updateDetectionHistory h xs
        = (h ++ xs).drop (h.length + xs.length - 20) := by
  induction xs with
  | nil =>
    intro h hh
    simp [Nat.sub_eq_zero_of_le hh]
  | cons e xs ih =>
    intro h hh
    rw [List.foldl_cons]
    rcases Nat.lt_or_ge h.length 20 with hlt | hge
    · rw [updateDetectionHistory_of_lt h e hlt,
        ih (h ++ [e]) (by simp; omega)]
      have harr : (h ++ [e]) ++ xs = h ++ (e :: xs) := by simp
      have hamt : (h ++ [e]).length + xs.length - 20 = h.length + (e :: xs).length - 20 := by
        simp only [List.length_append, List.length_cons, List.length_singleton, List.length_nil]
        omega
      rw [harr, hamt]
    · have h20 : h.length = 20 := le_antisymm hh hge
      cases h with
      | nil => simp at h20
      | cons a t =>
        have hlen : t.length = 19 := by simpa using h20
        rw [updateDetectionHistory_of_eq _ e h20]
        have htail : ((a :: t) ++ [e]).tail = t ++ [e] := by simp
        rw [htail, ih (t ++ [e]) (by simp; omega)]
        have harr : (t ++ [e]) ++ xs = t ++ (e :: xs) := by simp
        have hamt : (t ++ [e]).length + xs.length - 20 = xs.length := by
          simp only [List.length_append, List.length_singleton, List.length_cons, List.length_nil]
          omega
        rw [harr, hamt]
        have hrhs : (a :: t) ++ (e :: xs) = a :: (t ++ e :: xs) := by simp
        have hamt2 : (a :: t).length + (e :: xs).length - 20 = xs.length + 1 := by
          simp only [List.length_cons]
          omega
        rw [hrhs, hamt2, List.drop_succ_cons]

/-! ## Claim theorems -/

/-- C2: per-band history is a capacity-20 FIFO: `push` appends, evicts the
oldest exactly when the post-push length exceeds 20, the length never
exceeds 20, and after 25 pushes the retained history is the last 20 pushed
values in chronological order (oldest first). -/
theorem history_capacity_fifo (h : List ℚ) (e : ℚ) (xs : List ℚ)
    (hh : h.length ≤ 20) (hxs : xs.length = 25) :
    (updateDetectionHistory h e).length ≤ 20 ∧
    (h.length < 20 → updateDetectionHistory h e = h ++ [e]) ∧
    (h.length = 20 → updateDetectionHistory h e = (h ++ [e]).tail) ∧
    List.foldl updateDetectionHistory [] xs = xs.drop 5 := by
  refine ⟨updateDetectionHistory_length_le h e hh,
    fun hlt => updateDetectionHistory_of_lt h e hlt,
    fun h20 => updateDetectionHistory_of_eq h e h20, ?_⟩
  rw [foldl_updateDetectionHistory xs [] (by simp)]
  simp [hxs]

/-- C2 witness at a full history and a 25-push sequence. -/
theorem history_capacity_fifo_witness :
    (updateDetectionHistory (List.replicate 20 (0 : ℚ)) 1).length ≤ 20 ∧
    ((List.replicate 20 (0 : ℚ)).length < 20 →
      updateDetectionHistory (List.replicate 20 (0 : ℚ)) 1 = List.replicate 20 0 ++ [1]) ∧
    ((List.replicate 20 (0 : ℚ)).length = 20 →
      updateDetectionHistory (List.replicate 20 (0 : ℚ)) 1 = (List.replicate 20 0 ++ [1]).tail) ∧
    List.foldl updateDetectionHistory [] (List.replicate 25 (2 : ℚ)) = (List.replicate 25 (2 : ℚ)).drop 5 :=
  history_capacity_fifo (List.replicate 20 0) 1 (List.replicate 25 2) (by simp) (by simp)

theorem recentFive_length (history : List ℚ) (h5 : 5 ≤ history.length) :
    (recentFive history).length = 5 := by
  unfold recentFive
  simp
  omega

theorem meanOf_replicate (n : ℕ) (c : ℚ) (hn : n ≠ 0) :
    meanOf (List.replicate n c) = c := by
  unfold meanOf
  rw [List.sum_replicate, List.length_replicate, nsmul_eq_mul]
  field_simp

theorem varianceOf_of_all_eq (l : List ℚ) (c : ℚ) (hne : l.length ≠ 0)
    (hall : ∀ x ∈ l, x = c) : varianceOf l = 0 := by
  have hrep : l = List.replicate l.length c := List.eq_replicate_length.mpr hall
  unfold varianceOf
  rw [hrep, List.map_replicate, List.length_replicate,
    meanOf_replicate l.length c hne]
  simp

/-- C3 counterexample: a constant-valued five-sample history yields sustained
confidence exactly 0.7, not the claimed 0.9 — the 0.9 cap is never attained
since `0.7 - variance*5` cannot exceed 0.7. -/
theorem sustained_constant_confidence_counterexample :
    getDetectionConfidence false [1/2, 1/2, 1/2, 1/2, 1/2] = 7/10 ∧
    getDetectionConfidence false [1/2, 1/2, 1/2, 1/2, 1/2] ≠ 9/10 := by
  norm_num [getDetectionConfidence, recentFive, varianceOf, meanOf, min_def, max_def]

/-- C3 (amended): for a sustained band with at least 5 samples, a
constant-valued recent history (variance 0) yields confidence exactly 0.7,
and a recent history with variance at least 2/25 yields exactly 0.3
(floored). -/
theorem sustained_confidence_values (history : List ℚ) (c : ℚ)
    (h5 : 5 ≤ history.length) :
    ((∀ x ∈ recentFive history, x = c) → getDetectionConfidence false history = 7/10) ∧
    (2/25 ≤ varianceOf (recentFive history) → getDetectionConfidence false history = 3/10) := by
  have hnotlt : ¬ history.length < 5 := by omega
  constructor
  · intro hall
    have hvar : varianceOf (recentFive history) = 0 :=
      varianceOf_of_all_eq _ c (by rw [recentFive_length history h5]; omega) hall
    unfold getDetectionConfidence
    rw [if_neg hnotlt, if_neg (by simp), hvar]
    norm_num [min_def, max_def]
  · intro hvar
    unfold getDetectionConfidence
    rw [if_neg hnotlt, if_neg (by simp)]
    have h1 : 7/10 - varianceOf (recentFive history) * 5 ≤ 3/10 := by linarith
    rw [max_eq_left h1, min_eq_right (by norm_num)]

/-- C3 witness: a concrete constant history gives 0.7 and a concrete
high-variance history gives 0.3. -/
theorem sustained_confidence_values_witness :
    getDetectionConfidence false [1/3, 1/3, 1/3, 1/3, 1/3] = 7/10 ∧
    getDetectionConfidence false [0, 1, 0, 1, 0] = 3/10 :=
  ⟨(sustained_confidence_values [1/3, 1/3, 1/3, 1/3, 1/3] (1/3) (by norm_num)).1 (by
      intro x hx
      simp [recentFive] at hx
      rw [hx]; norm_num),
   (sustained_confidence_values [0, 1, 0, 1, 0] 0 (by norm_num)).2 (by
      norm_num [recentFive, varianceOf, meanOf])⟩

/-- C4 counterexample: the second sample 3/10 is exactly 1.5 times its
predecessor 1/5 ("at least 1.5x" holds), yet the percussive confidence is
0.4, not 0.8 — the code's transient test is strict. -/
theorem percussive_ratio_counterexample :
    (1/5 : ℚ) * (3/2) ≤ 3/10 ∧
    getDetectionConfidence true [1/5, 3/10, 1/5, 1/5, 1/5] = 2/5 := by
  norm_num [getDetectionConfidence, recentFive, hasTransient]

/-- C4 (amended): for a percussive band with at least 5 samples, confidence
is 0.8 iff some sample among the last five strictly exceeds 1.5 times its
immediate predecessor, and otherwise 0.4; a flat nonnegative-valued history
yields 0.4. -/
theorem percussive_confidence_transient (history : List ℚ) (c : ℚ)
    (h5 : 5 ≤ history.length) :
    (getDetectionConfidence true history = 4/5 ↔
      ∃ p ∈ (recentFive history).tail.zip (recentFive history), p.2 * (3/2) < p.1) ∧
    (getDetectionConfidence true history = 4/5 ∨ getDetectionConfidence true history = 2/5) ∧
    ((∀ x ∈ history, x = c) → 0 ≤ c → getDetectionConfidence true history = 2/5) := by
  have hnotlt : ¬ history.length < 5 := by omega
  have hconf : getDetectionConfidence true history =
      if hasTransient (recentFive history) then 4/5 else 2/5 := by
    unfold getDetectionConfidence
    rw [if_neg hnotlt, if_pos rfl]
  refine ⟨?_, ?_, ?_⟩
  · rw [hconf]
    by_cases htr : hasTransient (recentFive history) = true
    · rw [if_pos htr]
      unfold hasTransient at htr
      simp only [List.any_eq_true, decide_eq_true_eq] at htr
      exact ⟨fun _ => htr, fun _ => rfl⟩
    · rw [if_neg htr]
      unfold hasTransient at htr
      simp only [List.any_eq_true, decide_eq_true_eq] at htr
      push_neg at htr
      constructor
      · intro h
        norm_num at h
      · intro ⟨p, hp, hlt⟩
        exact absurd hlt (not_lt.mpr (htr p hp))
  · rw [hconf]
    by_cases htr : hasTransient (recentFive history) = true
    · exact Or.inl (by rw [if_pos htr])
    · exact Or.inr (by rw [if_neg htr])
  · intro hall hc
    have hfalse : hasTransient (recentFive history) = false := by
      unfold hasTransient
      rw [List.any_eq_false]
      intro p hp
      have hmem := List.of_mem_zip hp
      have h1 : p.1 ∈ history := by
        have := List.mem_of_mem_tail hmem.1
        unfold recentFive at this
        exact List.drop_subset _ _ this
      have h2 : p.2 ∈ history := by
        have := hmem.2
        unfold recentFive at this
        exact List.drop_subset _ _ this
      have e1 : p.1 = c := hall _ h1
      have e2 : p.2 = c := hall _ h2
      simp only [decide_eq_true_eq, e1, e2, not_lt]
      linarith
    rw [hconf, hfalse, if_neg (by simp)]

/-- C4 witness: a history with a strict transient gives 0.8 and a flat one
gives 0.4. -/
theorem percussive_confidence_transient_witness :
    getDetectionConfidence true [1/10, 1/10, 1/2, 1/10, 1/10] = 4/5 ∧
    getDetectionConfidence true [1/4, 1/4, 1/4, 1/4, 1/4] = 2/5 :=
  ⟨(percussive_confidence_transient [1/10, 1/10, 1/2, 1/10, 1/10] 0 (by norm_num)).1.mpr
      ⟨(1/2, 1/10), by norm_num [recentFive], by norm_num⟩,
   (percussive_confidence_transient [1/4, 1/4, 1/4, 1/4, 1/4] (1/4) (by norm_num)).2.2
      (by intro x hx; simp at hx; rw [hx]; norm_num) (by norm_num)⟩

theorem detectInstruments_bass_eq (fb : FreqBands) :
    (detectInstruments fb).bass = if 3/5 < fb.bass then ⟨true, fb.bass⟩ else ⟨false, 0⟩ := by
  unfold detectInstruments
  dsimp only
  split_ifs <;> rfl

theorem detectInstruments_drums_eq (fb : FreqBands) :
    (detectInstruments fb).drums =
      if 3/5 < fb.sub_bass ∨ 7/10 < fb.highs then ⟨true, max fb.sub_bass fb.highs⟩
      else ⟨false, 0⟩ := by
  unfold detectInstruments
  dsimp only
  split_ifs <;> rfl

theorem detectInstruments_vocals_eq (fb : FreqBands) :
    (detectInstruments fb).vocals = if 7/10 < fb.mids then ⟨true, fb.mids⟩ else ⟨false, 0⟩ := by
  unfold detectInstruments
  dsimp only
  split_ifs <;> rfl

theorem detectInstruments_guitar_eq (fb : FreqBands) :
    (detectInstruments fb).guitar =
      if 3/5 < fb.low_mids ∧ 1/2 < fb.mids then ⟨true, (fb.low_mids + fb.mids) / 2⟩
      else ⟨false, 0⟩ := by
  unfold detectInstruments
  dsimp only
  split_ifs <;> rfl

theorem detectInstruments_synth_eq (fb : FreqBands) :
    (detectInstruments fb).synth =
      if 7/10 < fb.high_mids ∧ 3/5 < fb.highs then ⟨true, (fb.high_mids + fb.highs) / 2⟩
      else ⟨false, 0⟩ := by
  unfold detectInstruments
  dsimp only
  split_ifs <;> rfl

/-- C9: the batch rule layer flags bass iff bass > 0.6 (confidence = that
energy), drums iff sub_bass > 0.6 or highs > 0.7 (confidence = max of the
two), vocals iff mids > 0.7 (confidence = mids), guitar iff low_mids > 0.6
and mids > 0.5 (confidence = average), synth iff high_mids > 0.7 and
highs > 0.6 (confidence = average); and the specific six-band input yields
drums detected at 0.65, vocals detected at 0.75 and all others undetected. -/
theorem batch_detection_rules (fb : FreqBands) :
    ((detectInstruments fb).bass.detected = decide (3/5 < fb.bass)) ∧
    (3/5 < fb.bass → (detectInstruments fb).bass.confidence = fb.bass) ∧
    ((detectInstruments fb).drums.detected = decide (3/5 < fb.sub_bass ∨ 7/10 < fb.highs)) ∧
    (3/5 < fb.sub_bass ∨ 7/10 < fb.highs →
      (detectInstruments fb).drums.confidence = max fb.sub_bass fb.highs) ∧
    ((detectInstruments fb).vocals.detected = decide (7/10 < fb.mids)) ∧
    (7/10 < fb.mids → (detectInstruments fb).vocals.confidence = fb.mids) ∧
    ((detectInstruments fb).guitar.detected = decide (3/5 < fb.low_mids ∧ 1/2 < fb.mids)) ∧
    (3/5 < fb.low_mids ∧ 1/2 < fb.mids →
      (detectInstruments fb).guitar.confidence = (fb.low_mids + fb.mids) / 2) ∧
    ((detectInstruments fb).synth.detected = decide (7/10 < fb.high_mids ∧ 3/5 < fb.highs)) ∧
    (7/10 < fb.high_mids ∧ 3/5 < fb.highs →
      (detectInstruments fb).synth.confidence = (fb.high_mids + fb.highs) / 2) ∧
    detectInstruments ⟨13/20, 3/10, 1/5, 3/4, 1/5, 1/5⟩ =
      ⟨⟨true, 3/4⟩, ⟨false, 0⟩, ⟨false, 0⟩, ⟨true, 13/20⟩, ⟨false, 0⟩, ⟨false, 0⟩⟩ := by
  rw [detectInstruments_bass_eq, detectInstruments_drums_eq, detectInstruments_vocals_eq,
    detectInstruments_guitar_eq, detectInstruments_synth_eq]
  refine ⟨?_, ?_, ?_, ?_, ?_, ?_, ?_, ?_, ?_, ?_, by norm_num [detectInstruments]⟩ <;>
    (split_ifs with h <;> simp_all)

/-- C9 witness at the spec's six-band test vector. -/
theorem batch_detection_rules_witness :
    (detectInstruments ⟨13/20, 3/10, 1/5, 3/4, 1/5, 1/5⟩).drums.confidence = max (13/20) (1/5) ∧
    (detectInstruments ⟨13/20, 3/10, 1/5, 3/4, 1/5, 1/5⟩).vocals.confidence = (3/4 : ℚ) :=
  ⟨(batch_detection_rules ⟨13/20, 3/10, 1/5, 3/4, 1/5, 1/5⟩).2.2.2.1 (Or.inl (by norm_num)),
   (batch_detection_rules ⟨13/20, 3/10, 1/5, 3/4, 1/5, 1/5⟩).2.2.2.2.2.1 (by norm_num)⟩

/-- C10: the batch detection output always carries a piano entry that is
never detected and has confidence 0, for every input. -/
theorem batch_piano_never_detected (fb : FreqBands) :
    (detectInstruments fb).piano = ⟨false, 0⟩ := by
  unfold detectInstruments
  dsimp only
  split <;> split <;> split <;> split <;> split <;> rfl

theorem suppressOverlap_vocals (t : BandResults) : (suppressOverlap t).vocals = t.vocals := by
  unfold suppressOverlap
  cases hb : t.bass <;> cases hg : t.guitar <;> simp [hb, hg] <;> split <;> rfl

theorem suppressOverlap_bass (t : BandResults) : (suppressOverlap t).bass = t.bass := by
  unfold suppressOverlap
  cases hb : t.bass <;> cases hg : t.guitar <;> simp [hb, hg] <;> split <;> simp [hb]

theorem suppressOverlap_kick (t : BandResults) : (suppressOverlap t).kick = t.kick := by
  unfold suppressOverlap
  cases hb : t.bass <;> cases hg : t.guitar <;> simp [hb, hg] <;> split <;> rfl

theorem suppressOverlap_snare (t : BandResults) : (suppressOverlap t).snare = t.snare := by
  unfold suppressOverlap
  cases hb : t.bass <;> cases hg : t.guitar <;> simp [hb, hg] <;> split <;> rfl

theorem suppressOverlap_hihat (t : BandResults) : (suppressOverlap t).hihat = t.hihat := by
  unfold suppressOverlap
  cases hb : t.bass <;> cases hg : t.guitar <;> simp [hb, hg] <;> split <;> rfl

theorem suppressOverlap_synth (t : BandResults) : (suppressOverlap t).synth = t.synth := by
  unfold suppressOverlap
  cases hb : t.bass <;> cases hg : t.guitar <;> simp [hb, hg] <;> split <;> rfl

theorem suppressOverlap_guitar_energy_active (t : BandResults) :
    Option.map (fun r => (r.energy, r.active)) (suppressOverlap t).guitar
      = Option.map (fun r => (r.energy, r.active)) t.guitar := by
  unfold suppressOverlap
  cases hb : t.bass <;> cases hg : t.guitar <;> simp [hb, hg] <;> split <;> simp [hg]

theorem processOverlaps_drums_eq (t : BandResults) :
    (processOverlaps t).drums =
      match t.kick, t.snare, t.hihat with
      | some k, some s, some h =>
          some ⟨max k.energy (max s.energy h.energy),
                k.active || s.active || h.active,
                max k.confidence (max s.confidence h.confidence), k, s, h⟩
      | _, _, _ => none := by
  show groupDrums (suppressOverlap t) = _
  unfold groupDrums
  rw [suppressOverlap_kick, suppressOverlap_snare, suppressOverlap_hihat]

/-- C5 counterexample: with both bands active and guitar's energy 0.9
exceeding bass's 0.5 by more than the 1.2 ratio, the weaker band (bass)
keeps its confidence 0.5 untouched, and so does guitar — the code only
damps guitar when bass is the stronger one, never the reverse. -/
theorem overlap_reverse_ratio_counterexample :
    ((1/2 : ℚ) * (6/5) < 9/10) ∧
    (processOverlaps ⟨none, some ⟨9/10, true, 1/2⟩, some ⟨1/2, true, 1/2⟩,
        none, none, none, none⟩).bands.bass = some ⟨1/2, true, 1/2⟩ ∧
    (processOverlaps ⟨none, some ⟨9/10, true, 1/2⟩, some ⟨1/2, true, 1/2⟩,
        none, none, none, none⟩).bands.guitar = some ⟨9/10, true, 1/2⟩ := by
  refine ⟨by norm_num, ?_, ?_⟩ <;> norm_num [processOverlaps, suppressOverlap]

/-- C5 (amended): for the registered (bass, guitar) pair with both present
and active, guitar's confidence is multiplied by 0.7 exactly when bass's
energy exceeds guitar's by the 1.2 ratio; in the reverse direction nothing
is suppressed, and no band outside the pair is ever altered. -/
theorem overlap_suppression_directional (t : BandResults) (b g : DetectionResult)
    (hb : t.bass = some b) (hg : t.guitar = some g)
    (hba : b.active = true) (hga : g.active = true) :
    (g.energy * (6/5) < b.energy →
      (processOverlaps t).bands.guitar = some ⟨g.energy, g.active, g.confidence * (7/10)⟩) ∧
    (¬ g.energy * (6/5) < b.energy → (processOverlaps t).bands.guitar = some g) ∧
    (processOverlaps t).bands.bass = t.bass ∧
    (processOverlaps t).bands.vocals = t.vocals ∧
    (processOverlaps t).bands.kick = t.kick ∧
    (processOverlaps t).bands.snare = t.snare ∧
    (processOverlaps t).bands.hihat = t.hihat ∧
    (processOverlaps t).bands.synth = t.synth := by
  refine ⟨?_, ?_, suppressOverlap_bass t, suppressOverlap_vocals t,
    suppressOverlap_kick t, suppressOverlap_snare t,
    suppressOverlap_hihat t, suppressOverlap_synth t⟩
  · intro hlt
    show (suppressOverlap t).guitar = _
    simp [suppressOverlap, hb, hg, hba, hga, hlt]
  · intro hnlt
    show (suppressOverlap t).guitar = _
    simp [suppressOverlap, hb, hg, hba, hga, hnlt]

/-- C5 witness: bass 0.9 over guitar 0.5 damps guitar's confidence to
0.6 x 0.7. -/
theorem overlap_suppression_directional_witness :
    (processOverlaps ⟨none, some ⟨1/2, true, 3/5⟩, some ⟨9/10, true, 3/5⟩,
        none, none, none, none⟩).bands.guitar = some ⟨1/2, true, (3/5) * (7/10)⟩ :=
  ((overlap_suppression_directional
      ⟨none, some ⟨1/2, true, 3/5⟩, some ⟨9/10, true, 3/5⟩, none, none, none, none⟩
      ⟨9/10, true, 3/5⟩ ⟨1/2, true, 3/5⟩ rfl rfl rfl rfl).1 (by norm_num))

/-- C6: a composite drums result is emitted iff kick, snare and hihat all
produced a result this tick; when emitted, its energy is the max of the
three energies, its active flag the OR of the three flags, its confidence
the max of the three confidences, and its components the three individual
results. -/
theorem drums_composite_aggregation (t : BandResults) :
    ((processOverlaps t).drums.isSome ↔ t.kick.isSome ∧ t.snare.isSome ∧ t.hihat.isSome) ∧
    (∀ k s h, t.kick = some k → t.snare = some s → t.hihat = some h →
      (processOverlaps t).drums = some ⟨max k.energy (max s.energy h.energy),
        k.active || s.active || h.active,
        max k.confidence (max s.confidence h.confidence), k, s, h⟩) := by
  constructor
  · cases hk : t.kick <;> cases hs : t.snare <;> cases hh : t.hihat <;>
      simp [processOverlaps_drums_eq, hk, hs, hh]
  · intro k s h hk hs hh
    simp [processOverlaps_drums_eq, hk, hs, hh]

/-- C6 witness: a tick where all three percussion bands have results. -/
theorem drums_composite_aggregation_witness :
    (processOverlaps ⟨none, none, none, some ⟨1, true, 1/2⟩, some ⟨1/2, false, 1/4⟩,
        some ⟨3/4, true, 1/8⟩, none⟩).drums
      = some ⟨max 1 (max (1/2) (3/4)), true || false || true,
          max (1/2) (max (1/4) (1/8)), ⟨1, true, 1/2⟩, ⟨1/2, false, 1/4⟩, ⟨3/4, true, 1/8⟩⟩ :=
  (drums_composite_aggregation ⟨none, none, none, some ⟨1, true, 1/2⟩, some ⟨1/2, false, 1/4⟩,
      some ⟨3/4, true, 1/8⟩, none⟩).2
    ⟨1, true, 1/2⟩ ⟨1/2, false, 1/4⟩ ⟨3/4, true, 1/8⟩ rfl rfl rfl

theorem updateDetectionHistory_of_ge (h : List ℚ) (e : ℚ) (hge : 20 ≤ h.length) :
    updateDetectionHistory h e = (h ++ [e]).tail := by
  unfold updateDetectionHistory
  rw [if_pos]
  simp
  omega

/-- C7 counterexample: a frame of length 0 mismatching the declared
bufferLength 512 is not rejected — `processInstrumentData` still runs the
tick and the bass history grows by one sample, where the claim demands the
tick be skipped with no history update. -/
theorem no_frame_validation_counterexample :
    ([] : List ℕ).length ≠ 512 ∧
    (processInstrumentData .bass [] 512 44100 []).2.length = 1 := by
  refine ⟨by decide, ?_⟩
  simp [processInstrumentData, updateDetectionHistory]

/-- C7 (amended): no frame validation exists. For every frame, of any
length (matching the declared bufferLength or not), `processInstrumentData`
pushes the computed energy onto the band's history (the new last sample is
that energy, and the length advances as a normal push) and returns a fresh
result carrying that energy; no InvalidFrame error path is present. -/
theorem processInstrumentData_never_skips (b : Band) (d : List ℕ) (n : ℕ)
    (sr : ℚ) (h : List ℚ) :
    ((processInstrumentData b d n sr h).2).getLast?
      = some (bandEnergyRaw d n sr (freqRange b).1 (freqRange b).2) ∧
    (h.length ≤ 20 → ((processInstrumentData b d n sr h).2).length = min (h.length + 1) 20) ∧
    (processInstrumentData b d n sr h).1.energy
      = bandEnergyRaw d n sr (freqRange b).1 (freqRange b).2 := by
  have h2 : (processInstrumentData b d n sr h).2
      = updateDetectionHistory h (bandEnergyRaw d n sr (freqRange b).1 (freqRange b).2) := rfl
  set e := bandEnergyRaw d n sr (freqRange b).1 (freqRange b).2 with he
  refine ⟨?_, ?_, rfl⟩
  · rw [h2]
    rcases Nat.lt_or_ge h.length 20 with hlt | hge
    · rw [updateDetectionHistory_of_lt h e hlt, List.getLast?_concat]
    · rw [updateDetectionHistory_of_ge h e hge]
      cases h with
      | nil => simp at hge
      | cons a t =>
        have : ((a :: t) ++ [e]).tail = t ++ [e] := by simp
        rw [this, List.getLast?_concat]
  · intro hle
    rw [h2]
    rcases Nat.lt_or_ge h.length 20 with hlt | hge
    · rw [updateDetectionHistory_of_lt h e hlt]
      simp
      omega
    · rw [updateDetectionHistory_of_ge h e hge]
      simp
      omega

/-- C7 witness: a mismatched one-byte frame against bufferLength 3 still
updates the kick history. -/
theorem processInstrumentData_never_skips_witness :
    ((processInstrumentData .kick [7] 3 8 [1]).2).getLast?
      = some (bandEnergyRaw [7] 3 8 (freqRange .kick).1 (freqRange .kick).2) ∧
    ((processInstrumentData .kick [7] 3 8 [1]).2).length = min (1 + 1) 20 :=
  ⟨(processInstrumentData_never_skips .kick [7] 3 8 [1]).1,
   by
    have := (processInstrumentData_never_skips .kick [7] 3 8 [1]).2.1 (by norm_num)
    simpa using this⟩

theorem getD_le_255 (d : List ℕ) (i : ℕ) (hd : ∀ x ∈ d, x ≤ 255) : d.getD i 0 ≤ 255 := by
  rcases Nat.lt_or_ge i d.length with hi | hi
  · rw [List.getD_eq_getElem d 0 hi]
    exact hd _ (List.getElem_mem hi)
  · rw [List.getD_eq_default d 0 hi]
    omega

/-- C8: band energy extraction maps frequencies to indices by
`floor(freq / (sampleRate/2) * bufferLength)`, averages byte magnitudes
over the index range intersected with the buffer bound and normalizes by
255, always yields a value in [0,1], and returns 0 on an empty index range
(no division by zero). -/
theorem bandEnergyRaw_bounds (d : List ℕ) (n : ℕ) (sr lo hi : ℚ)
    (hlen : d.length = n) (hd : ∀ x ∈ d, x ≤ 255) :
    0 ≤ bandEnergyRaw d n sr lo hi ∧ bandEnergyRaw d n sr lo hi ≤ 1 ∧
    (min (Int.toNat ⌊hi / (sr / 2) * n⌋) n ≤ Int.toNat ⌊lo / (sr / 2) * n⌋ →
      bandEnergyRaw d n sr lo hi = 0) := by
  unfold bandEnergyRaw
  set A := (⌊lo / (sr / 2) * (n : ℚ)⌋).toNat with hA
  set B := min (⌊hi / (sr / 2) * (n : ℚ)⌋).toNat n with hB
  set cnt := B - A with hcnt
  by_cases hc : 0 < cnt
  · rw [if_pos hc]
    set S := ((List.range' A cnt).map fun i => d.getD i 0).sum with hS
    have hSle : S ≤ cnt * 255 := by
      have hb : ∀ x ∈ (List.range' A cnt).map fun i => d.getD i 0, x ≤ 255 := by
        intro x hx
        simp only [List.mem_map] at hx
        obtain ⟨i, _, rfl⟩ := hx
        exact getD_le_255 d i hd
      have hsc := List.sum_le_card_nsmul ((List.range' A cnt).map fun i => d.getD i 0) 255 hb
      rw [List.length_map, List.length_range', smul_eq_mul] at hsc
      rw [hS]
      exact hsc
    have hcq : (0 : ℚ) < (cnt : ℚ) := by exact_mod_cast hc
    refine ⟨by positivity, ?_, ?_⟩
    · rw [div_div]
      rw [div_le_one (by positivity)]
      calc (S : ℚ) ≤ (cnt : ℚ) * 255 := by exact_mod_cast hSle
        _ = (cnt : ℚ) * 255 := rfl
    · intro hle
      exfalso
      omega
  · rw [if_neg hc]
    refine ⟨le_refl 0, by norm_num, fun _ => rfl⟩

/-- C8 witness: a well-formed two-byte frame yields a [0,1] energy, and a
band whose mapped range is empty yields 0. -/
theorem bandEnergyRaw_bounds_witness :
    (0 ≤ bandEnergyRaw [100, 200] 2 2 0 4 ∧ bandEnergyRaw [100, 200] 2 2 0 4 ≤ 1) ∧
    bandEnergyRaw [100, 200] 2 2 4 0 = 0 :=
  ⟨⟨(bandEnergyRaw_bounds [100, 200] 2 2 0 4 rfl (by decide)).1,
    (bandEnergyRaw_bounds [100, 200] 2 2 0 4 rfl (by decide)).2.1⟩,
   (bandEnergyRaw_bounds [100, 200] 2 2 4 0 rfl (by decide)).2.2 (by norm_num)⟩

theorem activeMatches_of_map_eq (b : Band) (o : Option DetectionResult) (e : ℚ)
    (h : Option.map (fun r => (r.energy, r.active)) o = some (e, decide (threshold b < e))) :
    activeMatches b o = true := by
  cases o with
  | none => simp at h
  | some r =>
    simp only [Option.map_some'] at h
    rw [Option.some.injEq, Prod.mk.injEq] at h
    obtain ⟨h1, h2⟩ := h
    simp [activeMatches, h2, h1]

/-- C1: every tick of `getInstrumentEnergy` emits, for each of the seven
configured bands, a result with `active == (energy > that band's own
threshold)` — overlap resolution only rescales guitar's confidence, never
its energy or active flag. -/
theorem tick_active_iff_energy_above_threshold (d : List ℕ) (n : ℕ) (sr : ℚ)
    (hs : Histories) :
    (activeMatches .vocals ((getInstrumentEnergy d n sr hs).1.bands.vocals) &&
     activeMatches .guitar ((getInstrumentEnergy d n sr hs).1.bands.guitar) &&
     activeMatches .bass ((getInstrumentEnergy d n sr hs).1.bands.bass) &&
     activeMatches .kick ((getInstrumentEnergy d n sr hs).1.bands.kick) &&
     activeMatches .snare ((getInstrumentEnergy d n sr hs).1.bands.snare) &&
     activeMatches .hihat ((getInstrumentEnergy d n sr hs).1.bands.hihat) &&
     activeMatches .synth ((getInstrumentEnergy d n sr hs).1.bands.synth)) = true := by
  set pre : BandResults := ⟨some (processInstrumentData .vocals d n sr hs.vocals).1,
    some (processInstrumentData .guitar d n sr hs.guitar).1,
    some (processInstrumentData .bass d n sr hs.bass).1,
    some (processInstrumentData .kick d n sr hs.kick).1,
    some (processInstrumentData .snare d n sr hs.snare).1,
    some (processInstrumentData .hihat d n sr hs.hihat).1,
    some (processInstrumentData .synth d n sr hs.synth).1⟩ with hpre
  have hband : (getInstrumentEnergy d n sr hs).1.bands = suppressOverlap pre := rfl
  rw [hband, suppressOverlap_vocals, suppressOverlap_bass, suppressOverlap_kick,
    suppressOverlap_snare, suppressOverlap_hihat, suppressOverlap_synth]
  have hg : activeMatches .guitar (suppressOverlap pre).guitar = true := by
    apply activeMatches_of_map_eq .guitar _
      (bandEnergyRaw d n sr (freqRange .guitar).1 (freqRange .guitar).2)
    rw [suppressOverlap_guitar_energy_active]
    simp [hpre, processInstrumentData]
  rw [hg]
  simp [hpre, activeMatches, processInstrumentData]

end MusicVisualizer
